import Mathlib

/-!
Verification of `release_fix_versioner.py` against its specification.

The script's pure decision logic is embedded shallowly:

* Python strings are `String`, trimmed with `pyStrip` (Python `str.strip()`)
  and upper-cased with `pyUpper` (Python `str.upper()`, ASCII fragment).
* The compiled commit pattern together with the named-or-positional group
  resolution of `group_commits_by_pattern` (lines 95-101) is modelled as a
  matcher function `String → Option (String × String)` returning the raw
  text of the key group and of the value group of the first `re.search`
  match, or `none` when the pattern does not match.  Two concrete matchers
  are provided: `matchUpperKeyPattern` for the spec scenario pattern
  `^(?P<key>[A-Z]+-[0-9]+)[ :-](?P<value>.*)` and `matchDefaultPattern` for
  the script's default `^(?P<key>[\w]*-[\d]*)[ :-](?P<value>.*)` (ASCII
  word characters; both patterns are start-anchored, so `re.search` can
  only match at position 0 and greedy character classes need no
  backtracking for these shapes).
* HTTP collaborators (`requests.get/post/put`) are modelled as functions
  from the request data to the response the tracker returns; the JSON
  bodies the script reads are modelled by the structures below.
* `sys.exit`, uncaught exceptions and the external mutating calls are
  modelled as a `RunOutcome` plus an ordered `Event` trace.
-/

/-- Python whitespace characters stripped by `str.strip()`. -/
def isPySpace (c : Char) : Bool :=
  c = ' ' || c = '\t' || c = '\n' || c = '\r' || c = '\x0b' || c = '\x0c'

/-- Python `str.strip()`: remove leading and trailing whitespace. -/
def pyStrip (s : String) : String :=
  ⟨((s.data.dropWhile isPySpace).reverse.dropWhile isPySpace).reverse⟩

/-- Python `str.upper()` on ASCII text. -/
def pyUpper (s : String) : String :=
  ⟨s.data.map Char.toUpper⟩

/-- Python `str.split(sep)` yields one field per separator, keeping empty
fields; in particular splitting the empty string yields `[""]`. -/
def pySplitLinesAux : List Char → List Char → List String
  | [], acc => [⟨acc.reverse⟩]
  | c :: cs, acc =>
      if c = '\n' then ⟨acc.reverse⟩ :: pySplitLinesAux cs []
      else pySplitLinesAux cs (c :: acc)

/-- `get_commits_for_tag` (lines 84-90): the git collaborator's output for
`git log --format=%s first...second` is the input; the function returns
`commits.split('\n')`. -/
def get_commits_for_tag (gitLogOutput : String) : List String :=
  pySplitLinesAux gitLogOutput.data []

/-- `commit_dict[key].append(...)` with on-demand creation (lines 110-113):
append `v` to the bucket of `k`, creating the bucket at the end of the
dict (Python dicts preserve insertion order). -/
def addToGroup : List (String × List String) → String → String → List (String × List String)
  | [], k, v => [(k, [v])]
  | (k0, vs) :: rest, k, v =>
      if k0 = k then (k0, vs ++ [v]) :: rest else (k0, vs) :: addToGroup rest k v

/-- One iteration of the loop of `group_commits_by_pattern` (lines 105-115):
on a match, `m.group(key_id).strip().upper()` keys the bucket and
`m.group(value_id).strip()` is appended; otherwise the stripped commit goes
to `unknown_commits`. -/
def classifyStep (m : String → Option (String × String))
    (acc : List (String × List String) × List String) (commit : String) :
    List (String × List String) × List String :=
  match m commit with
  | some g => (addToGroup acc.1 (pyUpper (pyStrip g.1)) (pyStrip g.2), acc.2)
  | none => (acc.1, acc.2 ++ [pyStrip commit])

/-- `group_commits_by_pattern` (lines 93-117): fold the loop body over the
commit messages starting from an empty dict and an empty unmatched list. -/
def group_commits_by_pattern (m : String → Option (String × String))
    (commit_messages : List String) : List (String × List String) × List String :=
  commit_messages.foldl (classifyStep m) ([], [])

/-- Dictionary lookup in the insertion-ordered association list. -/
def groupLookup : List (String × List String) → String → Option (List String)
  | [], _ => none
  | (k, vs) :: rest, k0 => if k = k0 then some vs else groupLookup rest k0

/-- Total number of message fragments stored across all buckets. -/
def groupTotal (d : List (String × List String)) : Nat :=
  (d.map (fun p => p.2.length)).sum

/-- The trimmed values of the messages that match `m` with normalized key
`k`, in input order: the reference list each bucket must equal. -/
def keyValues (m : String → Option (String × String)) (k : String)
    (msgs : List String) : List String :=
  msgs.filterMap (fun c =>
    match m c with
    | some g => if pyUpper (pyStrip g.1) = k then some (pyStrip g.2) else none
    | none => none)

/-- Extend an optional bucket by further values, creating it when some
value arrives. -/
def extendGroup (o : Option (List String)) (ext : List String) : Option (List String) :=
  match o with
  | some vs => some (vs ++ ext)
  | none => if ext.isEmpty then none else some ext

/-- ASCII fragment of Python's `\w` class: letters, digits, underscore. -/
def isWordChar (c : Char) : Bool :=
  c.isAlphanum || c = '_'

/-- Matcher for the spec scenario pattern
`^(?P<key>[A-Z]+-[0-9]+)[ :-](?P<value>.*)` compiled without flags: the
key group is one or more uppercase letters, a hyphen, one or more digits
(both classes case-sensitive); one separator from `[ :-]`; the value group
is the rest of the line up to a newline.  Start-anchored, so `re.search`
matches at position 0 or not at all. -/
def matchUpperKeyPattern (s : String) : Option (String × String) :=
  match s.data.span (fun c => 'A' ≤ c && c ≤ 'Z') with
  | (ups, rest1) =>
    if ups.isEmpty then none else
    match rest1 with
    | '-' :: rest2 =>
      match rest2.span Char.isDigit with
      | (digs, rest3) =>
        if digs.isEmpty then none else
        match rest3 with
        | sep :: value =>
            if sep = ' ' || sep = ':' || sep = '-' then
              some (⟨ups ++ '-' :: digs⟩, ⟨value.takeWhile (fun c => c ≠ '\n')⟩)
            else none
        | [] => none
    | _ => none

/-- Matcher for the script's default pattern
`^(?P<key>[\w]*-[\d]*)[ :-](?P<value>.*)` (line 25): possibly empty word
run, a hyphen, possibly empty digit run, one separator from `[ :-]`, then
the rest of the line.  ASCII fragment of `\w`; start-anchored. -/
def matchDefaultPattern (s : String) : Option (String × String) :=
  match s.data.span isWordChar with
  | (w, rest1) =>
    match rest1 with
    | '-' :: rest2 =>
      match rest2.span Char.isDigit with
      | (digs, rest3) =>
        match rest3 with
        | sep :: value =>
            if sep = ' ' || sep = ':' || sep = '-' then
              some (⟨w ++ '-' :: digs⟩, ⟨value.takeWhile (fun c => c ≠ '\n')⟩)
            else none
        | [] => none
    | _ => none

/-- One fix version object of the issue JSON: an `id` and a `name`
(`fields.fixVersions[i]`). -/
structure FixVersionRecord where
  id : String
  name : String
deriving DecidableEq

/-- The part of the issue JSON that `validate_jira_id` reads:
`fields.status.name` and the optional `fields.fixVersions` array (`none`
when the `fixVersions` key is absent from `fields`). -/
structure IssueFields where
  statusName : String
  fixVersions : Option (List FixVersionRecord)
deriving DecidableEq

/-- The tracker's response to the issue GET: the HTTP status code and the
parsed body.  The body is only consulted in the 200 branch, mirroring the
script, which parses `response.text` only after the status checks. -/
structure IssueResponse where
  statusCode : Nat
  fields : IssueFields
deriving DecidableEq

/-- `validate_jira_id` (lines 120-141).  `httpGet` models
`requests.get(request_url, auth=...)` as a function from the request URL
to the tracker's response; a raised `ValueError message` is an
`Except.error message`. -/
def validate_jira_id (httpGet : String → IssueResponse) (base_url jira_id : String)
    (allow_multiple_fix_versions : Bool) : Except String Unit :=
  match httpGet (base_url ++ "/rest/api/2/issue/" ++ jira_id) with
  | response =>
    if response.statusCode = 404 then
      Except.error "Jira ticket not found."
    else if response.statusCode ≠ 200 then
      Except.error ("Unexpected status code during lookup: " ++ toString response.statusCode)
    else if response.fields.statusName ≠ "Done" then
      Except.error ("Invalid status, expected 'Done' found '" ++ response.fields.statusName ++ "'")
    else
      match allow_multiple_fix_versions, response.fields.fixVersions with
      | false, some (v :: _) => Except.error ("Already contains a fix version: " ++ v.name)
      | _, _ => Except.ok ()

/-- Reasons of the spec's `ValidationOutcome.Invalid` (§3). -/
inductive InvalidReason where
  | notFound
  | unexpectedStatus (code : Nat)
  | wrongStatus (actual : String)
  | alreadyHasFixVersion (existingName : String)
deriving DecidableEq

/-- The spec's `ValidationOutcome` (§3): `Valid` or `Invalid` with a
reason. -/
inductive ValidationOutcome where
  | valid
  | invalid (reason : InvalidReason)
deriving DecidableEq

/-- The configured "done" status name: the script compares against the
literal `'Done'`. -/
def doneStatusName : String := "Done"

/-- Modelled from the spec, §4.3: the validity policy evaluated in order —
not-found, unexpected status, wrong status, already-has-fix-version,
otherwise valid.  Used to compare the spec's policy with the code. -/
def specValidationPolicy (response : IssueResponse) (allowMultiple : Bool) :
    ValidationOutcome :=
  if response.statusCode = 404 then
    ValidationOutcome.invalid InvalidReason.notFound
  else if response.statusCode ≠ 200 then
    ValidationOutcome.invalid (InvalidReason.unexpectedStatus response.statusCode)
  else if response.fields.statusName ≠ doneStatusName then
    ValidationOutcome.invalid (InvalidReason.wrongStatus response.fields.statusName)
  else
    match allowMultiple, response.fields.fixVersions with
    | false, some (v :: _) =>
        ValidationOutcome.invalid (InvalidReason.alreadyHasFixVersion v.name)
    | _, _ => ValidationOutcome.valid

/-- The `ValueError` message the script raises for each invalid reason. -/
def reasonMessage : InvalidReason → String
  | InvalidReason.notFound => "Jira ticket not found."
  | InvalidReason.unexpectedStatus code =>
      "Unexpected status code during lookup: " ++ toString code
  | InvalidReason.wrongStatus actual =>
      "Invalid status, expected 'Done' found '" ++ actual ++ "'"
  | InvalidReason.alreadyHasFixVersion existingName =>
      "Already contains a fix version: " ++ existingName

/-- The validation loop of `main` (lines 241-251): each grouped key is
validated; a success adds it to `valid_tickets`, a caught `ValueError`
adds it with the message to `invalid_tickets`, and the loop always
continues with the remaining keys. -/
def validateAll (httpGet : String → IssueResponse) (base_url : String)
    (allow : Bool) :
    List (String × List String) →
      List (String × List String) × List (String × List String × String)
  | [] => ([], [])
  | (jira_id, commit_list) :: rest =>
    match validateAll httpGet base_url allow rest with
    | (valid, invalid) =>
      match validate_jira_id httpGet base_url jira_id allow with
      | Except.ok _ => ((jira_id, commit_list) :: valid, invalid)
      | Except.error e => (valid, (jira_id, commit_list, e) :: invalid)

/-- Whether a validation result is a success. -/
def validationOk : Except String Unit → Bool
  | Except.ok _ => true
  | Except.error _ => false

/-- Externally visible mutating calls of a run, in order: the fix-version
POST (line 156), the per-issue attach PUT (line 182), the tag creation and
push (lines 292-293). -/
inductive Event where
  | createFixVersionCall (name : String)
  | attachCall (jira_id : String) (fix_version_id : String)
  | tagCreate (name : String)
deriving DecidableEq

/-- How the modelled part of `main` ends: a `sys.exit(code)`, an uncaught
`AttributeError` on a missing namespace attribute, an uncaught
`ValueError`, or normal completion. -/
inductive RunOutcome where
  | exited (code : Int)
  | attributeError (attr : String)
  | valueError (msg : String)
  | completed
deriving DecidableEq

/-- The response to the fix-version POST: its status code and the `id`
field of its parsed JSON body. -/
structure HttpResponse where
  status_code : Nat
  bodyId : String
deriving DecidableEq

/-- `create_fix_version` (lines 144-165): one POST is issued; `is not 201`
behaves as `≠ 201` for CPython's cached small ints (spec §9), so any other
status raises `ValueError`, and on 201 the `id` of the response JSON is
returned.  The description only alters the POST body, never the control
flow. -/
def create_fix_version (fix_version_name : String) (description : Option String)
    (jira_project : String) (postResponse : HttpResponse) :
    List Event × Except String String :=
  ([Event.createFixVersionCall fix_version_name],
   if postResponse.status_code ≠ 201 then
     Except.error ("Failed to create fix version. Expected status 201, received "
       ++ toString postResponse.status_code)
   else Except.ok postResponse.bodyId)

/-- `add_fix_version_to_ticket` (lines 168-189): one PUT is issued; a
status other than 204 raises `ValueError`. -/
def add_fix_version_to_ticket (jira_id fix_version_id : String) (putStatus : Nat) :
    List Event × Except String Unit :=
  ([Event.attachCall jira_id fix_version_id],
   if putStatus ≠ 204 then
     Except.error ("Failed to add fix version to " ++ jira_id
       ++ ". Expected status 204, received " ++ toString putStatus)
   else Except.ok ())

/-- The attach loop of `main` (lines 284-288): every valid ticket is
attempted in order; a raised `ValueError` is caught, recorded for that
ticket (the printed failure), and the loop continues.  `attachStatus`
models the tracker's PUT status per issue key. -/
def applyFixVersions (fix_version_id : String) :
    List (String × List String) → (String → Nat) → List Event × List (String × String)
  | [], _ => ([], [])
  | item :: rest, attachStatus =>
    match add_fix_version_to_ticket item.1 fix_version_id (attachStatus item.1) with
    | (ev, r) =>
      match applyFixVersions fix_version_id rest attachStatus with
      | (evs, failures) =>
        match r with
        | Except.ok _ => (ev ++ evs, failures)
        | Except.error e => (ev ++ evs, (item.1, e) :: failures)

/-- Lines 280-296 of `main`, given the evaluated description argument:
create the fix version once; an uncaught `ValueError` from a non-201
status aborts before any attach; on success attach to every valid ticket
and finally create and push a tag when `--create-tag` was set and the
valid set is non-empty. -/
def createAndAttach (release_name : String) (description : Option String)
    (jira_project : String) (create_tag : Bool)
    (valid_tickets : List (String × List String)) (createResp : HttpResponse)
    (attachStatus : String → Nat) :
    List Event × List (String × String) × RunOutcome :=
  match create_fix_version release_name description jira_project createResp with
  | (createEvents, Except.error e) => (createEvents, [], RunOutcome.valueError e)
  | (createEvents, Except.ok fix_version_id) =>
    match applyFixVersions fix_version_id valid_tickets attachStatus with
    | (attachEvents, failures) =>
      if create_tag ∧ valid_tickets ≠ [] then
        (createEvents ++ attachEvents ++ [Event.tagCreate release_name], failures,
         RunOutcome.completed)
      else
        (createEvents ++ attachEvents, failures, RunOutcome.completed)

/-- The attribute names `parse_args` defines on the parsed namespace, one
per `add_argument` destination (lines 15-29); `parse_args` itself only
reassigns `release_name` and `previous_tag`, never adds a name. -/
def namespaceAttrs : List String :=
  ["app", "repo_path", "release_name", "release_description", "release_tag",
   "previous_tag", "jira_base_url", "jira_username", "jira_password",
   "jira_project", "commit_pattern", "assume_yes", "allow_multiple_versions",
   "create_tag", "dry_run"]

/-- The Python attribute access `args.description` (line 281): an access
to an attribute the namespace does not define raises `AttributeError`;
were the attribute defined, its value would be returned. -/
def getDescriptionAttr : Except String (Option String) :=
  if namespaceAttrs.contains "description" then Except.ok none
  else Except.error "description"

/-- Lines 253-296 of `main`, from the computed `valid_tickets` onward:
early exit with `sys.exit(-1)` when no ticket is valid (line 271), exit
with `sys.exit(-1)` in dry-run mode (line 275), exit when confirmation is
required and declined (line 278), then evaluation of `args.description`
for the `create_fix_version` call (line 281), which decides between an
`AttributeError` and the create/attach/tag phase. -/
def mainReconcile (dry_run assume_yes userAnswersYes : Bool)
    (release_name jira_project : String) (create_tag : Bool)
    (valid_tickets : List (String × List String)) (createResp : HttpResponse)
    (attachStatus : String → Nat) :
    List Event × List (String × String) × RunOutcome :=
  if valid_tickets.isEmpty then ([], [], RunOutcome.exited (-1))
  else if dry_run then ([], [], RunOutcome.exited (-1))
  else if assume_yes = false ∧ userAnswersYes = false then ([], [], RunOutcome.exited (-1))
  else
    match getDescriptionAttr with
    | Except.error attr => ([], [], RunOutcome.attributeError attr)
    | Except.ok description =>
        createAndAttach release_name description jira_project create_tag
          valid_tickets createResp attachStatus

/-- Count of fix-version creation calls in a trace. -/
def countCreateCalls (events : List Event) : Nat :=
  (events.filter (fun e =>
    match e with
    | Event.createFixVersionCall _ => true
    | _ => false)).length

/-- The attach calls of a trace, as (issue key, version id) pairs in
order. -/
def attachCallsIn (events : List Event) : List (String × String) :=
  events.filterMap (fun e =>
    match e with
    | Event.attachCall j v => some (j, v)
    | _ => none)

/-- A git tag as `resolve_tag` reads it: its name and the committed date
of the commit it points at (a unix timestamp). -/
structure GitTag where
  name : String
  committedDate : Nat
deriving DecidableEq

/-- Result of `resolve_tag`: either the empty-string sentinel the script
returns for a falsy expression (git reads the empty side of a range as
HEAD), or a concrete tag. -/
inductive ResolvedRev where
  | sentinel
  | tag (t : GitTag)
deriving DecidableEq

/-- Stable insertion of a tag into a list sorted by committed date
descending: tags with a strictly greater date stay in front, and the new
tag is placed before any tag of equal or smaller date. -/
def insertTagByDateDesc (t : GitTag) : List GitTag → List GitTag
  | [] => [t]
  | u :: us =>
      if t.committedDate < u.committedDate then u :: insertTagByDateDesc t us
      else t :: u :: us

/-- `sorted(tags, key=lambda t: t.commit.committed_date, reverse=True)`
(line 200): a stable sort by committed date descending. -/
def sortTagsByDateDesc : List GitTag → List GitTag
  | [] => []
  | t :: ts => insertTagByDateDesc t (sortTagsByDateDesc ts)

/-- `resolve_tag` (lines 192-207).  `reMatch pat name` models
`re.compile(pat).match(name)`; `tagExpr` is the possibly absent `--*-tag`
argument (`none` ≘ Python `None`); `repoTags` models `repo.tags`.  A falsy
expression returns the sentinel, otherwise the first match in the
date-descending order is returned and a missing match raises. -/
def resolve_tag (reMatch : String → String → Bool) (tagExpr : Option String)
    (repoTags : List GitTag) : Except String ResolvedRev :=
  match tagExpr with
  | none => Except.ok ResolvedRev.sentinel
  | some s =>
    if s = "" then Except.ok ResolvedRev.sentinel
    else
      match (sortTagsByDateDesc repoTags).find? (fun t => reMatch s t.name) with
      | some t => Except.ok (ResolvedRev.tag t)
      | none => Except.error ("Could not find tag: " ++ s)

/-- Python `re.match(pat, s)` for a pattern without regex metacharacters:
anchored at the start and only there, it succeeds exactly when `s` begins
with the literal pattern text; no whole-string anchor is applied. -/
def reMatchLiteral (pat s : String) : Bool :=
  List.isPrefixOf pat.data s.data

theorem classify_foldl_unmatched (m : String → Option (String × String)) :
    ∀ (msgs : List String) (acc : List (String × List String) × List String),
      (msgs.foldl (classifyStep m) acc).2
        = acc.2 ++ (msgs.filter (fun c => (m c).isNone)).map pyStrip := by
  intro msgs
  induction msgs with
  | nil => intro acc; simp
  | cons c cs ih =>
      intro acc
      cases h : m c with
      | some g =>
          simp [List.foldl_cons, classifyStep, h, ih]
      | none =>
          simp [List.foldl_cons, classifyStep, h, ih]

theorem groupLookup_addToGroup (d : List (String × List String)) (k v k0 : String) :
    groupLookup (addToGroup d k v) k0
      = if k0 = k then some (((groupLookup d k).getD []) ++ [v])
        else groupLookup d k0 := by
  induction d with
  | nil =>
      by_cases hk : k0 = k
      · simp [addToGroup, groupLookup, hk]
      · have hk2 : ¬ k = k0 := fun h0 => hk h0.symm
        simp [addToGroup, groupLookup, hk, hk2]
  | cons p rest ih =>
      by_cases h1 : p.1 = k
      · by_cases hk : k0 = k
        · simp [addToGroup, groupLookup, h1, hk]
        · have hk2 : ¬ k = k0 := fun h0 => hk h0.symm
          simp [addToGroup, groupLookup, h1, hk, hk2]
      · by_cases h2 : p.1 = k0
        · have hk : ¬ k0 = k := fun h0 => h1 (h2.trans h0)
          simp [addToGroup, groupLookup, h1, h2, hk]
        · simp [addToGroup, groupLookup, h1, h2, ih]

theorem classify_foldl_lookup (m : String → Option (String × String)) (k : String) :
    ∀ (msgs : List String) (acc : List (String × List String) × List String),
      groupLookup (msgs.foldl (classifyStep m) acc).1 k
        = extendGroup (groupLookup acc.1 k) (keyValues m k msgs) := by
  intro msgs
  induction msgs with
  | nil =>
      intro acc
      cases h : groupLookup acc.1 k <;> simp [keyValues, extendGroup, h]
  | cons c cs ih =>
      intro acc
      cases h : m c with
      | none =>
          simp only [List.foldl_cons, classifyStep, h, ih, keyValues, List.filterMap_cons]
      | some g =>
          by_cases hk : pyUpper (pyStrip g.1) = k
          · have hcons : keyValues m k (c :: cs) = pyStrip g.2 :: keyValues m k cs := by
              simp [keyValues, List.filterMap_cons, h, hk]
            simp only [List.foldl_cons, classifyStep, h, ih, hcons,
              groupLookup_addToGroup, hk, if_pos rfl]
            cases hd : groupLookup acc.1 k with
            | none => simp [extendGroup]
            | some vs => simp [extendGroup]
          · have hcons : keyValues m k (c :: cs) = keyValues m k cs := by
              simp [keyValues, List.filterMap_cons, h, hk]
            have hne : ¬ k = pyUpper (pyStrip g.1) := fun h0 => hk h0.symm
            simp only [List.foldl_cons, classifyStep, h, ih, hcons,
              groupLookup_addToGroup, if_neg hne]

theorem groupTotal_addToGroup (d : List (String × List String)) (k v : String) :
    groupTotal (addToGroup d k v) = groupTotal d + 1 := by
  induction d with
  | nil => simp [addToGroup, groupTotal]
  | cons p rest ih =>
      by_cases h1 : p.1 = k
      · simp only [addToGroup, if_pos h1, groupTotal, List.map_cons, List.sum_cons,
          List.length_append, List.length_cons, List.length_nil]
        omega
      · simp only [addToGroup, if_neg h1, groupTotal, List.map_cons, List.sum_cons]
        have := ih
        simp only [groupTotal] at this
        omega

theorem classify_foldl_count (m : String → Option (String × String)) :
    ∀ (msgs : List String) (acc : List (String × List String) × List String),
      groupTotal (msgs.foldl (classifyStep m) acc).1
          + (msgs.foldl (classifyStep m) acc).2.length
        = groupTotal acc.1 + acc.2.length + msgs.length := by
  intro msgs
  induction msgs with
  | nil => intro acc; simp
  | cons c cs ih =>
      intro acc
      cases h : m c with
      | some g =>
          simp only [List.foldl_cons, classifyStep, h, ih, groupTotal_addToGroup,
            List.length_cons]
          omega
      | none =>
          simp only [List.foldl_cons, classifyStep, h, ih, List.length_append,
            List.length_cons, List.length_nil]
          omega

/-- C1: `group_commits_by_pattern` partitions its input.  The unmatched
output is exactly the stripped non-matching messages in input order; each
key's bucket is exactly the stripped values of the messages matching that
key, in input order (so no message is dropped or duplicated and a matching
message lands only in its own key's bucket); the fragment count plus the
unmatched count equals the input length; and the empty input yields an
empty dict and an empty unmatched list. -/
theorem spec_C1_classifier_partition (m : String → Option (String × String))
    (msgs : List String) :
    (group_commits_by_pattern m msgs).2
        = (msgs.filter (fun c => (m c).isNone)).map pyStrip
    ∧ (∀ k : String, groupLookup (group_commits_by_pattern m msgs).1 k
        = if (keyValues m k msgs).isEmpty then none else some (keyValues m k msgs))
    ∧ groupTotal (group_commits_by_pattern m msgs).1
        + (group_commits_by_pattern m msgs).2.length = msgs.length
    ∧ group_commits_by_pattern m ([] : List String) = ([], []) := by
  refine ⟨?_, ?_, ?_, rfl⟩
  · simpa using classify_foldl_unmatched m msgs ([], [])
  · intro k
    have := classify_foldl_lookup m k msgs ([], [])
    simpa [extendGroup, groupLookup, group_commits_by_pattern] using this
  · simpa [group_commits_by_pattern, groupTotal] using classify_foldl_count m msgs ([], [])

/-- C2: `validate_jira_id` implements the spec's ordered policy — 404
gives not-found, any other non-200 status gives unexpected-status, a
status name other than the configured done status gives wrong-status,
a present non-empty fix-version list with multiple versions disallowed
gives already-has-fix-version naming the first existing version, and
otherwise the key is valid — and the validation loop of `main` sends every
grouped key to exactly one of the two outputs according to its own
validation alone, so one failure never aborts the remaining keys. -/
theorem spec_C2_validation_policy (httpGet : String → IssueResponse)
    (base_url jira_id : String) (allow : Bool)
    (grouped : List (String × List String)) :
    validate_jira_id httpGet base_url jira_id allow
        = (match specValidationPolicy (httpGet (base_url ++ "/rest/api/2/issue/" ++ jira_id)) allow with
           | ValidationOutcome.valid => Except.ok ()
           | ValidationOutcome.invalid r => Except.error (reasonMessage r))
    ∧ (validateAll httpGet base_url allow grouped).1
        = grouped.filter (fun p => validationOk (validate_jira_id httpGet base_url p.1 allow))
    ∧ (validateAll httpGet base_url allow grouped).2
        = grouped.filterMap (fun p =>
            match validate_jira_id httpGet base_url p.1 allow with
            | Except.ok _ => none
            | Except.error e => some (p.1, p.2, e)) := by
  refine ⟨?_, ?_, ?_⟩
  · simp only [validate_jira_id, specValidationPolicy, reasonMessage, doneStatusName]
    by_cases h404 : (httpGet (base_url ++ "/rest/api/2/issue/" ++ jira_id)).statusCode = 404
    · simp [h404]
    · by_cases h200 : (httpGet (base_url ++ "/rest/api/2/issue/" ++ jira_id)).statusCode = 200
      · by_cases hdone : (httpGet (base_url ++ "/rest/api/2/issue/" ++ jira_id)).fields.statusName = "Done"
        · cases hallow : allow with
          | true =>
              cases hfix : (httpGet (base_url ++ "/rest/api/2/issue/" ++ jira_id)).fields.fixVersions with
              | none => simp [h404, h200, hdone, hfix]
              | some l => cases l <;> simp [h404, h200, hdone, hfix]
          | false =>
              cases hfix : (httpGet (base_url ++ "/rest/api/2/issue/" ++ jira_id)).fields.fixVersions with
              | none => simp [h404, h200, hdone, hfix]
              | some l => cases l <;> simp [h404, h200, hdone, hfix]
        · simp [h404, h200, hdone]
      · simp [h404, h200]
  · induction grouped with
    | nil => rfl
    | cons p rest ih =>
        cases p with
        | mk jid cl =>
            cases h : validate_jira_id httpGet base_url jid allow with
            | ok u => simp [validateAll, h, ih, validationOk, List.filter_cons]
            | error e => simp [validateAll, h, ih, validationOk, List.filter_cons]
  · induction grouped with
    | nil => rfl
    | cons p rest ih =>
        cases p with
        | mk jid cl =>
            cases h : validate_jira_id httpGet base_url jid allow with
            | ok u => simp [validateAll, h, ih, List.filterMap_cons]
            | error e => simp [validateAll, h, ih, List.filterMap_cons]

/-- C7 counterexample: with the scenario pattern
`^(?P<key>[A-Z]+-[0-9]+)[ :-](?P<value>.*)` — compiled without
`re.IGNORECASE` — the commit `"core-12 - more fix"` cannot match the
case-sensitive class `[A-Z]+`, so the classification is not the claimed
`({"CORE-12": ["fix bug", "more fix"]}, ["no ticket here"])`. -/
theorem spec_C7_counterexample :
    group_commits_by_pattern matchUpperKeyPattern
        ["CORE-12: fix bug", "core-12 - more fix", "no ticket here"]
      ≠ ([("CORE-12", ["fix bug", "more fix"])], ["no ticket here"]) := by
  decide

/-- C7 amended: under the scenario pattern the lowercase-keyed commit is
unmatched, so classification yields the group `{"CORE-12": ["fix bug"]}`
and the unmatched list `["core-12 - more fix", "no ticket here"]`; keys
are canonicalized to uppercase only for commits the pattern itself
matches. -/
theorem spec_C7_scenario_amended :
    group_commits_by_pattern matchUpperKeyPattern
        ["CORE-12: fix bug", "core-12 - more fix", "no ticket here"]
      = ([("CORE-12", ["fix bug"])], ["core-12 - more fix", "no ticket here"]) := by
  decide

/-- C10: splitting the empty `git log` output of an empty commit range on
newlines yields `[""]`, a one-element list, not `[]`; the empty message
does not match the default pattern and is classified as one unmatched
commit, so the classifier never sees an empty list for an empty range. -/
theorem spec_C10_empty_range :
    get_commits_for_tag "" = [""]
    ∧ get_commits_for_tag "" ≠ []
    ∧ matchDefaultPattern "" = none
    ∧ group_commits_by_pattern matchDefaultPattern (get_commits_for_tag "") = ([], [""]) := by
  refine ⟨rfl, by decide, rfl, rfl⟩

theorem applyFixVersions_events (fix_version_id : String) :
    ∀ (tickets : List (String × List String)) (attachStatus : String → Nat),
      (applyFixVersions fix_version_id tickets attachStatus).1
        = tickets.map (fun t => Event.attachCall t.1 fix_version_id) := by
  intro tickets
  induction tickets with
  | nil => intro attachStatus; rfl
  | cons item rest ih =>
      intro attachStatus
      by_cases h : attachStatus item.1 ≠ 204 <;>
        simp [applyFixVersions, add_fix_version_to_ticket, h, ih]

theorem applyFixVersions_failures (fix_version_id : String) :
    ∀ (tickets : List (String × List String)) (attachStatus : String → Nat),
      (applyFixVersions fix_version_id tickets attachStatus).2
        = tickets.filterMap (fun t =>
            if attachStatus t.1 ≠ 204 then
              some (t.1, "Failed to add fix version to " ++ t.1
                ++ ". Expected status 204, received " ++ toString (attachStatus t.1))
            else none) := by
  intro tickets
  induction tickets with
  | nil => intro attachStatus; rfl
  | cons item rest ih =>
      intro attachStatus
      by_cases h : attachStatus item.1 ≠ 204 <;>
        simp [applyFixVersions, add_fix_version_to_ticket, h, ih, List.filterMap_cons]

theorem attachCallsIn_append (l1 l2 : List Event) :
    attachCallsIn (l1 ++ l2) = attachCallsIn l1 ++ attachCallsIn l2 := by
  simp [attachCallsIn, List.filterMap_append]

theorem attachCallsIn_create_single (n : String) :
    attachCallsIn [Event.createFixVersionCall n] = [] := rfl

theorem attachCallsIn_tag_single (n : String) :
    attachCallsIn [Event.tagCreate n] = [] := rfl

theorem countCreateCalls_append (l1 l2 : List Event) :
    countCreateCalls (l1 ++ l2) = countCreateCalls l1 + countCreateCalls l2 := by
  simp [countCreateCalls, List.filter_append]

theorem countCreateCalls_create_single (n : String) :
    countCreateCalls [Event.createFixVersionCall n] = 1 := rfl

theorem countCreateCalls_tag_single (n : String) :
    countCreateCalls [Event.tagCreate n] = 0 := rfl

theorem attachCallsIn_cons_create (n : String) (l : List Event) :
    attachCallsIn (Event.createFixVersionCall n :: l) = attachCallsIn l := rfl

theorem countCreateCalls_cons_create (n : String) (l : List Event) :
    countCreateCalls (Event.createFixVersionCall n :: l) = countCreateCalls l + 1 := by
  simp [countCreateCalls, List.filter_cons]

theorem attachCallsIn_map_attach (fix_version_id : String)
    (tickets : List (String × List String)) :
    attachCallsIn (tickets.map (fun t => Event.attachCall t.1 fix_version_id))
      = tickets.map (fun t => (t.1, fix_version_id)) := by
  induction tickets with
  | nil => rfl
  | cons item rest ih => simp [attachCallsIn, List.filterMap_cons] at ih ⊢; exact ih

theorem countCreateCalls_map_attach (fix_version_id : String)
    (tickets : List (String × List String)) :
    countCreateCalls (tickets.map (fun t => Event.attachCall t.1 fix_version_id)) = 0 := by
  induction tickets with
  | nil => rfl
  | cons item rest ih => simpa [countCreateCalls, List.filter_cons] using ih

/-- C4: the reconciliation issues exactly one fix-version creation call;
when the creation response status is anything other than 201 the phase
aborts with an uncaught `ValueError` and zero attach calls (and no tag
creation) happen; when it is exactly 201 `create_fix_version` returns the
`id` field of the response JSON and the attach phase proceeds over every
valid ticket with that id. -/
theorem spec_C4_create_fix_version (release_name : String) (description : Option String)
    (jira_project : String) (create_tag : Bool)
    (valid_tickets : List (String × List String)) (createResp : HttpResponse)
    (attachStatus : String → Nat) :
    countCreateCalls
        (createAndAttach release_name description jira_project create_tag
          valid_tickets createResp attachStatus).1 = 1
    ∧ attachCallsIn
        (createAndAttach release_name description jira_project create_tag
          valid_tickets createResp attachStatus).1
        = (if createResp.status_code = 201 then
            valid_tickets.map (fun t => (t.1, createResp.bodyId)) else [])
    ∧ (createAndAttach release_name description jira_project create_tag
          valid_tickets createResp attachStatus).2.2
        = (if createResp.status_code = 201 then RunOutcome.completed
           else RunOutcome.valueError
             ("Failed to create fix version. Expected status 201, received "
               ++ toString createResp.status_code))
    ∧ (create_fix_version release_name description jira_project createResp).2
        = (if createResp.status_code = 201 then Except.ok createResp.bodyId
           else Except.error
             ("Failed to create fix version. Expected status 201, received "
               ++ toString createResp.status_code)) := by
  by_cases h201 : createResp.status_code = 201
  · by_cases htag : create_tag ∧ valid_tickets ≠ [] <;>
      simp [createAndAttach, create_fix_version, h201, htag,
        applyFixVersions_events, applyFixVersions_failures,
        attachCallsIn_append, attachCallsIn_create_single, attachCallsIn_tag_single,
        countCreateCalls_append, countCreateCalls_create_single,
        countCreateCalls_tag_single, attachCallsIn_cons_create,
        countCreateCalls_cons_create, attachCallsIn_map_attach,
        countCreateCalls_map_attach]
  · simp [createAndAttach, create_fix_version, h201,
      countCreateCalls_create_single, attachCallsIn_create_single]

/-- C5: the attach loop attempts every valid issue in order no matter
which attaches fail, and each failure is recorded for its own issue only;
in particular for three valid issues where the second attach fails, the
first and third are still attempted. -/
theorem spec_C5_attach_isolation (fix_version_id : String)
    (tickets : List (String × List String)) (attachStatus : String → Nat) :
    (applyFixVersions fix_version_id tickets attachStatus).1
        = tickets.map (fun t => Event.attachCall t.1 fix_version_id)
    ∧ (applyFixVersions fix_version_id tickets attachStatus).2
        = tickets.filterMap (fun t =>
            if attachStatus t.1 ≠ 204 then
              some (t.1, "Failed to add fix version to " ++ t.1
                ++ ". Expected status 204, received " ++ toString (attachStatus t.1))
            else none)
    ∧ applyFixVersions "10" [("A-1", ["a"]), ("B-2", ["b"]), ("C-3", ["c"])]
          (fun j => if j = "B-2" then 500 else 204)
        = ([Event.attachCall "A-1" "10", Event.attachCall "B-2" "10",
            Event.attachCall "C-3" "10"],
           [("B-2", "Failed to add fix version to B-2. Expected status 204, received 500")]) := by
  exact ⟨applyFixVersions_events fix_version_id tickets attachStatus,
    applyFixVersions_failures fix_version_id tickets attachStatus, by rfl⟩

/-- C3: the parsed-argument namespace defines `release_description` but no
attribute named `description`, so every run that passes the no-valid-
tickets exit, the dry-run exit and the confirmation gate evaluates
`args.description` and dies with `AttributeError` before any mutating
call: the event trace is empty and the create/attach/tag phase is
unreachable. -/
theorem spec_C3_description_attribute_error :
    "description" ∉ namespaceAttrs
    ∧ ∀ (assume_yes userAnswersYes : Bool) (release_name jira_project : String)
        (create_tag : Bool) (valid_tickets : List (String × List String))
        (createResp : HttpResponse) (attachStatus : String → Nat),
        valid_tickets ≠ [] →
        (assume_yes = true ∨ userAnswersYes = true) →
        mainReconcile false assume_yes userAnswersYes release_name jira_project
            create_tag valid_tickets createResp attachStatus
          = ([], [], RunOutcome.attributeError "description") := by
  refine ⟨by decide, ?_⟩
  intro assume_yes userAnswersYes release_name jira_project create_tag
    valid_tickets createResp attachStatus hne hyes
  have hempty : valid_tickets.isEmpty = false := by
    cases valid_tickets with
    | nil => exact absurd rfl hne
    | cons a l => rfl
  have hgate : ¬ (assume_yes = false ∧ userAnswersYes = false) := by
    rcases hyes with h | h <;> simp [h]
  simp [mainReconcile, hempty, hgate, getDescriptionAttr, namespaceAttrs]

/-- C3 witness: a run with a valid ticket, dry-run off and assume-yes set
reaches line 281 and raises `AttributeError` with an empty event trace. -/
theorem spec_C3_description_attribute_error_witness :
    mainReconcile false true false "rel" "CORE" false [("CORE-1", ["m"])]
        ⟨201, "10"⟩ (fun _ => 204)
      = ([], [], RunOutcome.attributeError "description") :=
  spec_C3_description_attribute_error.2 true false "rel" "CORE" false
    [("CORE-1", ["m"])] ⟨201, "10"⟩ (fun _ => 204) (by decide) (Or.inl rfl)

/-- C6: with the dry-run flag set the run terminates with the non-zero
exit `sys.exit(-1)` and an empty event trace — no create call, no attach
call and no tag creation — regardless of how many valid issues exist. -/
theorem spec_C6_dry_run_never_mutates (assume_yes userAnswersYes : Bool)
    (release_name jira_project : String) (create_tag : Bool)
    (valid_tickets : List (String × List String)) (createResp : HttpResponse)
    (attachStatus : String → Nat) :
    mainReconcile true assume_yes userAnswersYes release_name jira_project
        create_tag valid_tickets createResp attachStatus
      = ([], [], RunOutcome.exited (-1))
    ∧ (-1 : Int) ≠ 0 := by
  refine ⟨?_, by decide⟩
  by_cases h : valid_tickets.isEmpty <;> simp [mainReconcile, h]

theorem mem_insertTagByDateDesc {t x : GitTag} :
    ∀ {l : List GitTag}, x ∈ insertTagByDateDesc t l ↔ x = t ∨ x ∈ l := by
  intro l
  induction l with
  | nil => simp [insertTagByDateDesc]
  | cons u us ih =>
      by_cases h : t.committedDate < u.committedDate
      · simp only [insertTagByDateDesc, if_pos h, List.mem_cons, ih]
        tauto
      · simp only [insertTagByDateDesc, if_neg h, List.mem_cons]

theorem pairwise_insertTagByDateDesc {t : GitTag} :
    ∀ {l : List GitTag},
      List.Pairwise (fun a b => b.committedDate ≤ a.committedDate) l →
      List.Pairwise (fun a b => b.committedDate ≤ a.committedDate)
        (insertTagByDateDesc t l) := by
  intro l
  induction l with
  | nil => intro _; simp [insertTagByDateDesc]
  | cons u us ih =>
      intro hp
      rcases List.pairwise_cons.mp hp with ⟨hu, hus⟩
      by_cases h : t.committedDate < u.committedDate
      · rw [insertTagByDateDesc, if_pos h]
        refine List.pairwise_cons.mpr ⟨?_, ih hus⟩
        intro x hx
        rcases mem_insertTagByDateDesc.mp hx with rfl | hx
        · exact Nat.le_of_lt h
        · exact hu x hx
      · rw [insertTagByDateDesc, if_neg h]
        refine List.pairwise_cons.mpr ⟨?_, hp⟩
        intro x hx
        rcases List.mem_cons.mp hx with rfl | hx
        · exact Nat.le_of_not_lt h
        · exact Nat.le_trans (hu x hx) (Nat.le_of_not_lt h)

theorem mem_sortTagsByDateDesc {x : GitTag} :
    ∀ {l : List GitTag}, x ∈ sortTagsByDateDesc l ↔ x ∈ l := by
  intro l
  induction l with
  | nil => simp [sortTagsByDateDesc]
  | cons t ts ih =>
      simp only [sortTagsByDateDesc, mem_insertTagByDateDesc, ih, List.mem_cons]

theorem pairwise_sortTagsByDateDesc :
    ∀ (l : List GitTag),
      List.Pairwise (fun a b => b.committedDate ≤ a.committedDate)
        (sortTagsByDateDesc l)
  | [] => List.Pairwise.nil
  | t :: ts => pairwise_insertTagByDateDesc (pairwise_sortTagsByDateDesc ts)

theorem find?_max_of_pairwise {p : GitTag → Bool} :
    ∀ {l : List GitTag} {t : GitTag},
      List.Pairwise (fun a b => b.committedDate ≤ a.committedDate) l →
      l.find? p = some t →
      ∀ u ∈ l, p u = true → u.committedDate ≤ t.committedDate := by
  intro l
  induction l with
  | nil => intro t _ hf; simp [List.find?] at hf
  | cons x xs ih =>
      intro t hp hf u hu hpu
      rcases List.pairwise_cons.mp hp with ⟨hx, hxs⟩
      cases hpx : p x with
      | true =>
          rw [List.find?_cons_of_pos _ hpx] at hf
          cases hf
          rcases List.mem_cons.mp hu with rfl | hu
          · exact Nat.le_refl _
          · exact hx u hu
      | false =>
          rw [List.find?_cons_of_neg _ (by simp [hpx])] at hf
          rcases List.mem_cons.mp hu with rfl | hu
          · rw [hpu] at hpx; cases hpx
          · exact ih hxs hf u hu hpu

/-- C8: `resolve_tag` returns the HEAD sentinel for an absent or empty
expression instead of failing; it fails with an error exactly when no tag
name matches a non-empty expression; and any tag it returns is a
repository tag matching the expression whose committed date is maximal
among all matching tags — the first tag in the date-descending sorted
order, making the most-recent-match choice deterministic. -/
theorem spec_C8_resolve_tag (reMatch : String → String → Bool)
    (repoTags : List GitTag) (expr : String) :
    resolve_tag reMatch none repoTags = Except.ok ResolvedRev.sentinel
    ∧ resolve_tag reMatch (some "") repoTags = Except.ok ResolvedRev.sentinel
    ∧ (expr ≠ "" → (∀ u ∈ repoTags, reMatch expr u.name = false) →
        resolve_tag reMatch (some expr) repoTags
          = Except.error ("Could not find tag: " ++ expr))
    ∧ (∀ t : GitTag,
        resolve_tag reMatch (some expr) repoTags = Except.ok (ResolvedRev.tag t) →
        t ∈ repoTags ∧ reMatch expr t.name = true
          ∧ ∀ u ∈ repoTags, reMatch expr u.name = true →
              u.committedDate ≤ t.committedDate)
    ∧ (expr ≠ "" → (∃ u ∈ repoTags, reMatch expr u.name = true) →
        ∃ t : GitTag,
          resolve_tag reMatch (some expr) repoTags = Except.ok (ResolvedRev.tag t)) := by
  refine ⟨rfl, rfl, ?_, ?_, ?_⟩
  · intro hne hnone
    have hfind : (sortTagsByDateDesc repoTags).find? (fun t => reMatch expr t.name) = none := by
      apply List.find?_eq_none.mpr
      intro x hx
      have := hnone x (mem_sortTagsByDateDesc.mp hx)
      simp [this]
    simp [resolve_tag, hne, hfind]
  · intro t ht
    simp only [resolve_tag] at ht
    by_cases hne : expr = ""
    · rw [if_pos hne] at ht
      cases ht
    · rw [if_neg hne] at ht
      cases hfind : (sortTagsByDateDesc repoTags).find? (fun t => reMatch expr t.name) with
      | none => rw [hfind] at ht; cases ht
      | some t0 =>
          rw [hfind] at ht
          cases ht
          refine ⟨mem_sortTagsByDateDesc.mp (List.mem_of_find?_eq_some hfind), ?_, ?_⟩
          · exact List.find?_some (p := fun u : GitTag => reMatch expr u.name) hfind
          · intro u hu hmu
            exact find?_max_of_pairwise (pairwise_sortTagsByDateDesc repoTags) hfind
              u (mem_sortTagsByDateDesc.mpr hu) hmu
  · intro hne hex
    rcases hex with ⟨u, hu, hmu⟩
    cases hfind : (sortTagsByDateDesc repoTags).find? (fun t => reMatch expr t.name) with
    | none =>
        have := List.find?_eq_none.mp hfind u (mem_sortTagsByDateDesc.mpr hu)
        rw [hmu] at this
        cases this rfl
    | some t0 =>
        exact ⟨t0, by simp [resolve_tag, hne, hfind]⟩

/-- C8 witness: concrete runs of `resolve_tag` — the sentinel for the
absent expression, the error for an unmatched expression, and the maximal
committed date of the tag selected among two matches. -/
theorem spec_C8_resolve_tag_witness :
    resolve_tag reMatchLiteral none [⟨"v-1", 1⟩] = Except.ok ResolvedRev.sentinel
    ∧ resolve_tag reMatchLiteral (some "zz") [⟨"v-1", 1⟩]
        = Except.error "Could not find tag: zz"
    ∧ GitTag.committedDate ⟨"v-1", 1⟩ ≤ GitTag.committedDate ⟨"v-2", 2⟩ := by
  refine ⟨(spec_C8_resolve_tag reMatchLiteral [⟨"v-1", 1⟩] "zz").1, ?_, ?_⟩
  · exact (spec_C8_resolve_tag reMatchLiteral [⟨"v-1", 1⟩] "zz").2.2.1
      (by decide) (by decide)
  · exact ((spec_C8_resolve_tag reMatchLiteral [⟨"v-1", 1⟩, ⟨"v-2", 2⟩] "v").2.2.2.1
      ⟨"v-2", 2⟩ (by rfl)).2.2 ⟨"v-1", 1⟩ (by simp) (by decide)

/-- C9: `re.match` anchors only at the start, so the tag expression is
matched with prefix semantics: the expression `app-1` selects the tag
named `app-10` (here the most recent matching tag), even though the names
differ — a whole-name match is never required. -/
theorem spec_C9_prefix_match :
    resolve_tag reMatchLiteral (some "app-1") [⟨"other-2", 9⟩, ⟨"app-10", 5⟩]
        = Except.ok (ResolvedRev.tag ⟨"app-10", 5⟩)
    ∧ reMatchLiteral "app-1" "app-10" = true
    ∧ "app-10" ≠ "app-1" := by
  refine ⟨rfl, rfl, by decide⟩
